import Mathlib

/-!
Verification of the Honeypot repository (Rust) against its natural-language
specification.  The relevant parts of the source are shallowly embedded as
executable Lean definitions; machine integers are modelled as `Nat`/`Int`
with explicit `% 2^32` where the Rust code casts to `u32`.  Rust `String`
byte lengths (`str::len`) are modelled with `String.utf8ByteSize`.
-/

namespace Honeypot

/-- `str::len` in Rust counts UTF-8 bytes. -/
def rustLen (s : String) : Nat := s.utf8ByteSize

/-- Embedding of `AttackEvent` (src/db/mod.rs).  `f64` coordinates are
modelled as fixed-point integers in milli-degrees (no claim depends on
floating-point behaviour); `payload` stores the hex-encoded string. -/
structure AttackEvent where
  id : Option Int := none
  timestamp : Int
  ip : String
  country_code : Option String := none
  latitude : Option Int := none
  longitude : Option Int := none
  service : String
  port : Nat
  request : String
  payload : Option String := none
  http_path : Option String := none
  username : Option String := none
  password : Option String := none
  user_agent : Option String := none
  request_size : Nat := 0
  deriving DecidableEq, Repr

/-- `AttackEvent::new` (src/db/mod.rs): the timestamp is `Utc::now()` at
construction, passed explicitly here. -/
def AttackEvent.new (now : Int) (ip service : String) (port : Nat)
    (request : String) : AttackEvent :=
  { timestamp := now, ip := ip, service := service, port := port,
    request := request }

def AttackEvent.with_credentials (e : AttackEvent) (username password : String) :
    AttackEvent :=
  { e with username := some username, password := some password }

/-- `hex::encode` over the payload bytes: two lowercase hex digits each. -/
def hexEncode (bytes : List Nat) : String :=
  String.join (bytes.map (fun b =>
    String.mk [Nat.digitChar (b / 16 % 16), Nat.digitChar (b % 16)]))

def AttackEvent.with_payload (e : AttackEvent) (payload : List Nat) :
    AttackEvent :=
  { e with payload := some (hexEncode payload) }

/-- The UTF-8 bytes of a string (`String::into_bytes`). -/
def bytesOfString (s : String) : List Nat :=
  s.toUTF8.toList.map UInt8.toNat

def AttackEvent.with_geo (e : AttackEvent) (country_code : String)
    (lat lon : Int) : AttackEvent :=
  { e with country_code := some country_code, latitude := some lat,
           longitude := some lon }

def AttackEvent.with_user_agent (e : AttackEvent) (user_agent : String) :
    AttackEvent :=
  { e with user_agent := some user_agent }

def AttackEvent.with_request_size (e : AttackEvent) (size : Nat) : AttackEvent :=
  { e with request_size := size }

/-! ### SSH honeypot (src/handlers/ssh.rs) -/

/-- `str::strip_prefix`: `some` of the remainder when `p` prefixes `s`. -/
def stripPre (p s : String) : Option String :=
  if p.data.isPrefixOf s.data then some ⟨s.data.drop p.data.length⟩ else none

/-- GeoIP lookup result, abstracted: `none` when the database is absent or
the IP does not resolve. -/
structure GeoLoc where
  country_code : String
  latitude : Int
  longitude : Int
  deriving DecidableEq, Repr

/-- `SshSession::log_auth_event` (src/handlers/ssh.rs lines 86-124): builds
the auth event that is sent to the write buffer and published.
`request_size = (username.len() + auth_detail.len() + 50) as u32`. -/
def log_auth_event (now : Int) (ip : String) (auth_method : Option String)
    (geo : Option GeoLoc) (username auth_detail : String) : AttackEvent :=
  let method := auth_method.getD "unknown"
  let request := "SSH auth (" ++ method ++ "): " ++ auth_detail ++ " from " ++ ip
  let request_size := (rustLen username + rustLen auth_detail + 50) % 2 ^ 32
  let event := AttackEvent.new now ip "ssh" 22 request
  let event :=
    if auth_method = some "password" then
      match stripPre (username ++ ":") auth_detail with
      | some password => event.with_credentials username password
      | none => event
    else event
  let event := event.with_request_size request_size
  match geo with
  | some loc => event.with_geo loc.country_code loc.latitude loc.longitude
  | none => event

/-- `SshSession::auth_password`: logs with `auth_detail = "user:password"`. -/
def auth_password_event (now : Int) (ip : String) (geo : Option GeoLoc)
    (user password : String) : AttackEvent :=
  log_auth_event now ip (some "password") geo user (user ++ ":" ++ password)

/-- `SshSession::auth_none`: logs with `auth_detail = user`. -/
def auth_none_event (now : Int) (ip : String) (geo : Option GeoLoc)
    (user : String) : AttackEvent :=
  log_auth_event now ip (some "none") geo user user

/-- `SshSession::auth_publickey`: logs with
`auth_detail = "user@<fingerprint>"`. -/
def auth_publickey_event (now : Int) (ip : String) (geo : Option GeoLoc)
    (user fingerprint : String) : AttackEvent :=
  log_auth_event now ip (some "publickey") geo user (user ++ "@" ++ fingerprint)

/-! ### Telnet handler (src/handlers/telnet.rs)

`read_telnet_line` pulls one byte at a time from the socket, filtering
Telnet IAC command sequences.  The socket is modelled as the finite list of
bytes the peer sends before EOF; bytes are `Nat` (only `=` and `≤`
comparisons are performed, so no wrap-around can occur). -/

/-- The loop body of `read_telnet_line` (src/handlers/telnet.rs lines
61-159), with its mutable state `result`, `in_iac`, `in_subneg` made
explicit.  `none` models the EOF / error / timeout paths that return
`None`; a read of zero bytes while discarding an option byte leaves the
loop running, so it hits EOF on the next iteration. -/
def readTelnetLineLoop (input result : List Nat) (inIac inSubneg : Bool) :
    Option (List Nat) :=
  match input with
  | [] => none
  | b :: rest =>
    if inSubneg then
      -- skip until IAC SE
      if b = 255 then readTelnetLineLoop rest result true true
      else if inIac ∧ b = 240 then readTelnetLineLoop rest result false false
      else readTelnetLineLoop rest result false true
    else if inIac then
      if b = 255 then
        -- escaped IAC (255 255) = literal 255
        readTelnetLineLoop rest (result ++ [255]) false false
      else if b = 251 ∨ b = 252 ∨ b = 253 ∨ b = 254 then
        -- WILL/WONT/DO/DONT: read and discard the option byte
        match rest with
        | [] => readTelnetLineLoop [] result false false
        | _ :: rest2 => readTelnetLineLoop rest2 result false false
      else if b = 250 then
        -- SB: subnegotiation until SE
        readTelnetLineLoop rest result false true
      else
        -- other IAC command, ignore
        readTelnetLineLoop rest result false false
    else if b = 255 then readTelnetLineLoop rest result true false
    else if b = 10 ∨ b = 13 then
      -- line endings; skip empty lines caused by CRLF sequences
      if result = [] then readTelnetLineLoop rest [] false false
      else some result
    else if 32 ≤ b ∧ b < 127 then readTelnetLineLoop rest (result ++ [b]) false false
    else readTelnetLineLoop rest result false false

/-- `read_telnet_line` on a byte stream: the collected line, or `none` at
EOF.  (The final `String::from_utf8_lossy` text conversion is not
modelled; the line is kept as its bytes.) -/
def read_telnet_line (input : List Nat) : Option (List Nat) :=
  readTelnetLineLoop input [] false false

/-- Modelled from the spec (C3 comparison definition): skip a Telnet
subnegotiation body "up to IAC SE", returning the remaining bytes.  The
flag records whether the previous byte was IAC. -/
def skipSubneg (inIac : Bool) : List Nat → List Nat
  | [] => []
  | b :: rest =>
    if b = 255 then skipSubneg true rest
    else if inIac ∧ b = 240 then rest
    else skipSubneg false rest

theorem skipSubneg_length_le (inIac : Bool) (l : List Nat) :
    (skipSubneg inIac l).length ≤ l.length := by
  induction l generalizing inIac with
  | nil => simp [skipSubneg]
  | cons b rest ih =>
    simp only [skipSubneg]
    split
    · exact (ih true).trans (Nat.le_succ _)
    · split
      · exact Nat.le_succ _
      · exact (ih false).trans (Nat.le_succ _)

/-- Modelled from the spec (C3 comparison definition): remove IAC command
sequences from a byte stream — IAC plus one command byte, IAC
WILL/WONT/DO/DONT plus one option byte, IAC SB subnegotiation up to IAC
SE — and interpret `0xFF 0xFF` as a single literal `0xFF`. -/
def removeIac : List Nat → List Nat
  | [] => []
  | b :: rest =>
    if b = 255 then
      match rest with
      | [] => []
      | c :: rest2 =>
        if c = 255 then 255 :: removeIac rest2
        else if c = 251 ∨ c = 252 ∨ c = 253 ∨ c = 254 then
          removeIac (rest2.drop 1)
        else if c = 250 then removeIac (skipSubneg false rest2)
        else removeIac rest2
    else b :: removeIac rest
  termination_by l => l.length
  decreasing_by
  all_goals simp_wf
  all_goals try omega
  all_goals have h := skipSubneg_length_le false rest2
  all_goals omega

/-- Modelled from the spec (C3, claim as stated): take the filtered stream
up to the first non-empty line terminator (`\n` or `\r`), skipping empty
intermediate lines; `none` when no such terminator occurs. -/
def lineScanAll (acc : List Nat) : List Nat → Option (List Nat)
  | [] => none
  | b :: rest =>
    if b = 10 ∨ b = 13 then
      if acc = [] then lineScanAll [] rest else some acc
    else lineScanAll (acc ++ [b]) rest

/-- Modelled from the spec (C3, claim as stated): the line the claim says
the Telnet reader produces. -/
def specIacTransparencyLine (input : List Nat) : Option (List Nat) :=
  lineScanAll [] (removeIac input)

/-- The bytes the reader actually appends to the line: printable ASCII
32..126, plus the literal `0xFF` produced by an escaped `0xFF 0xFF`. -/
def keepByte (b : Nat) : Prop := (32 ≤ b ∧ b < 127) ∨ b = 255

instance : DecidablePred keepByte := fun b => by unfold keepByte; infer_instance

/-- Modelled from the spec (C3 amended): as `lineScanAll` but keeping only
printable ASCII and escaped-IAC bytes. -/
def lineScanPrintable (acc : List Nat) : List Nat → Option (List Nat)
  | [] => none
  | b :: rest =>
    if b = 10 ∨ b = 13 then
      if acc = [] then lineScanPrintable [] rest else some acc
    else if keepByte b then lineScanPrintable (acc ++ [b]) rest
    else lineScanPrintable acc rest

/-- Modelled from the spec (C3 amended): the filtered-and-restricted line. -/
def specIacPrintableLine (input : List Nat) : Option (List Nat) :=
  lineScanPrintable [] (removeIac input)

/-! ### Store (src/db/mod.rs, src/db/schema.rs)

The SQLite state is embedded as two tables: the `requests` list (insertion
order = `id` order) and the `stats_daily` association list keyed by
`day_bucket`.  The JSON encode/decode round-trip of the rollup count
tables is abstracted to the identity: rows store the structured tables
directly.  `HashMap` accumulation is modelled as an association-list fold
in first-occurrence order. -/

/-- A `stats_daily` row (src/db/schema.rs).  Count tables are stored
structurally (see module note); coordinates are fixed-point integers. -/
structure RollupRow where
  total_requests : Int
  service_counts : List (String × Int)
  country_counts : List (String × Int)
  path_counts : List (String × Int)
  credential_counts : List ((String × String) × Int)
  location_counts : List ((Int × Int) × Int)
  total_bytes : Int
  ip_request_counts : List (String × Int)
  ip_bytes_counts : List (String × Int)
  deriving DecidableEq, Repr

/-- The embedded database state. -/
structure Db where
  requests : List AttackEvent
  statsDaily : List (Int × RollupRow)
  deriving DecidableEq, Repr

/-- `SELECT ... WHERE timestamp >= s AND timestamp < e`. -/
def eventsInRange (events : List AttackEvent) (s e : Int) : List AttackEvent :=
  events.filter (fun ev => decide (s ≤ ev.timestamp ∧ ev.timestamp < e))

/-- `COUNT(*)` over a day bucket's range. -/
def countInDay (events : List AttackEvent) (bucket : Int) : Int :=
  ((eventsInRange events bucket (bucket + 86400 * 1000)).length : Int)

/-- `COALESCE(SUM(request_size), 0)` over a day bucket's range. -/
def sumSizeInDay (events : List AttackEvent) (bucket : Int) : Int :=
  ((eventsInRange events bucket (bucket + 86400 * 1000)).map
    (fun ev => (ev.request_size : Int))).sum

/-- Add `inc` to key `k` of an association list (the `HashMap` entry
update), appending a new entry when absent. -/
def bump {α : Type} [DecidableEq α] (k : α) (inc : Int) :
    List (α × Int) → List (α × Int)
  | [] => [(k, inc)]
  | (k', v) :: t => if k = k' then (k', v + inc) :: t else (k', v) :: bump k inc t

/-- `GROUP BY key` with summed values (`HashMap` accumulation). -/
def groupSum {α : Type} [DecidableEq α] (pairs : List (α × Int)) :
    List (α × Int) :=
  pairs.foldl (fun acc p => bump p.1 p.2 acc) []

/-- `ORDER BY value DESC` (stable on ties). -/
def sortByCountDesc {α : Type} (l : List (α × Int)) : List (α × Int) :=
  l.mergeSort (fun a b => decide (b.2 ≤ a.2))

/-- `ORDER BY value DESC LIMIT k`. -/
def topBy {α : Type} (k : Nat) (l : List (α × Int)) : List (α × Int) :=
  (sortByCountDesc l).take k

/-- `ROUND(x, 1)` on a fixed-point milli-degree coordinate: round to the
nearest tenth of a degree (SQL float rounding abstracted). -/
def roundTenth (x : Int) : Int := (x + 50).fdiv 100

/-- `fn ts_to_day_bucket` (src/db/mod.rs line 906): `(ts / 86400000) *
86400000` with Rust's truncating `i64` division. -/
def ts_to_day_bucket (ts : Int) : Int := (Int.tdiv ts 86400000) * 86400000

/-- `SELECT COUNT(*) FROM stats_daily WHERE day_bucket = ?` is positive. -/
def Db.hasRollup (db : Db) (bucket : Int) : Bool :=
  db.statsDaily.any (fun p => p.1 == bucket)

/-- The `INSERT ... ON CONFLICT(day_bucket) DO UPDATE SET ... = excluded...`
upsert into `stats_daily`. -/
def upsertRollup (stats : List (Int × RollupRow)) (bucket : Int)
    (row : RollupRow) : List (Int × RollupRow) :=
  if stats.any (fun p => p.1 == bucket) then
    stats.map (fun p => if p.1 == bucket then (bucket, row) else p)
  else stats ++ [(bucket, row)]

/-- `Database::insert_event` (src/db/mod.rs lines 170-195): single row
insert; the assigned rowid is the new list position. -/
def Db.insert_event (db : Db) (event : AttackEvent) : Db :=
  { db with requests := db.requests ++ [event] }

/-- `Database::batch_insert_events` (src/db/mod.rs lines 197-232): all
rows in one transaction, no-op on empty.  `ok` is the transaction
outcome: on failure the transaction is rolled back, so no row persists. -/
def batch_insert_events (ok : Bool) (events : List AttackEvent)
    (requests : List AttackEvent) : List AttackEvent :=
  if events.isEmpty then requests
  else if ok then requests ++ events
  else requests

/-- The grouped queries of `Database::aggregate_day` over
`[day_start, day_end)` and the row they produce. -/
def rollupRowFor (requests : List AttackEvent) (day_start day_end : Int) :
    RollupRow :=
  let evs := eventsInRange requests day_start day_end
  { total_requests := (evs.length : Int)
    service_counts := groupSum (evs.map (fun ev => (ev.service, (1 : Int))))
    country_counts := groupSum (evs.filterMap
      (fun ev => ev.country_code.map (fun c => (c, (1 : Int)))))
    path_counts := topBy 100 (groupSum (evs.filterMap
      (fun ev => ev.http_path.map (fun p => (p, (1 : Int))))))
    credential_counts := topBy 100 (groupSum (evs.filterMap
      (fun ev => ev.username.map
        (fun u => ((u, ev.password.getD ""), (1 : Int))))))
    location_counts := topBy 500 (groupSum (evs.filterMap
      (fun ev => ev.latitude.map (fun la =>
        ((roundTenth la, roundTenth (ev.longitude.getD 0)), (1 : Int))))))
    total_bytes := (evs.map (fun ev => (ev.request_size : Int))).sum
    ip_request_counts := topBy 100 (groupSum
      (evs.map (fun ev => (ev.ip, (1 : Int)))))
    ip_bytes_counts := topBy 100 (groupSum
      (evs.map (fun ev => (ev.ip, (ev.request_size : Int))))) }

/-- `Database::aggregate_day` (src/db/mod.rs lines 713-859): skip when the
bucket is already in `stats_daily`; skip when the day's `COUNT(*)` is
zero; otherwise upsert the aggregated row. -/
def Db.aggregate_day (db : Db) (day_bucket : Int) : Db :=
  -- check if already aggregated - skip expensive queries if so
  if db.hasRollup day_bucket then db
  -- no data for this day
  else if countInDay db.requests day_bucket = 0 then db
  else
    let row := rollupRowFor db.requests day_bucket (day_bucket + 86400 * 1000)
    { db with statsDaily := upsertRollup db.statsDaily day_bucket row }

/-! ### Stats queries (src/db/mod.rs, hybrid rollup + live) -/

/-- `percentage` is an `f64` in the source; modelled as an exact rational
(no claim depends on float rounding). -/
structure ServiceStat where
  service : String
  count : Int
  percentage : Rat
  deriving DecidableEq, Repr

structure CredentialStat where
  username : String
  password : String
  count : Int
  deriving DecidableEq, Repr

structure PathStat where
  path : String
  count : Int
  deriving DecidableEq, Repr

structure StatsResponse where
  total : Int
  services : List ServiceStat
  credentials : List CredentialStat
  paths : List PathStat
  deriving DecidableEq, Repr

/-- `SELECT COUNT(*) FROM requests WHERE timestamp > ?` (strict). -/
def get_filtered_count (db : Db) (since_ts : Int) : Int :=
  ((db.requests.filter (fun ev => decide (since_ts < ev.timestamp))).length : Int)

/-- `Database::get_service_stats_raw`. -/
def get_service_stats_raw (db : Db) (since_ts : Int) : List ServiceStat :=
  let rows := sortByCountDesc (groupSum
    ((db.requests.filter (fun ev => decide (since_ts < ev.timestamp))).map
      (fun ev => (ev.service, (1 : Int)))))
  let total : Int := (rows.map Prod.snd).sum
  rows.map (fun p =>
    { service := p.1, count := p.2,
      percentage := if 0 < total then (p.2 : Rat) / (total : Rat) * 100 else 0 })

/-- `Database::get_top_credentials_raw`. -/
def get_top_credentials_raw (db : Db) (since_ts : Int) (limit : Nat) :
    List CredentialStat :=
  (topBy limit (groupSum
    ((db.requests.filter (fun ev =>
        decide (since_ts < ev.timestamp) && ev.username.isSome)).map
      (fun ev => ((ev.username.getD "", ev.password.getD ""), (1 : Int)))))).map
    (fun p => { username := p.1.1, password := p.1.2, count := p.2 })

/-- `Database::get_top_paths_raw`. -/
def get_top_paths_raw (db : Db) (since_ts : Int) (limit : Nat) :
    List PathStat :=
  (topBy limit (groupSum
    ((db.requests.filter (fun ev =>
        decide (since_ts < ev.timestamp) && ev.http_path.isSome)).map
      (fun ev => (ev.http_path.getD "", (1 : Int)))))).map
    (fun p => { path := p.1, count := p.2 })

/-- `Database::get_live_stats` (fallback over raw events). -/
def get_live_stats (db : Db) (since_ts : Int) : StatsResponse :=
  { total := get_filtered_count db since_ts
    services := get_service_stats_raw db since_ts
    credentials := get_top_credentials_raw db since_ts 50
    paths := get_top_paths_raw db since_ts 50 }

/-- `SELECT ... FROM stats_daily WHERE day_bucket >= ? AND day_bucket < ?`
with both bounds first mapped through `ts_to_day_bucket`. -/
def rollupRowsInRange (db : Db) (since_ts before_ts : Int) :
    List (Int × RollupRow) :=
  let since_day := ts_to_day_bucket since_ts
  let before_day := ts_to_day_bucket before_ts
  db.statsDaily.filter (fun p => decide (since_day ≤ p.1 ∧ p.1 < before_day))

/-- The aggregation loop of `Database::get_rollup_stats`: sum totals,
merge the count tables, resort, truncate credentials/paths to 50. -/
def rollupCombine (rows : List (Int × RollupRow)) : StatsResponse :=
  let total : Int := (rows.map (fun p => p.2.total_requests)).sum
  let services := groupSum (rows.flatMap (fun p => p.2.service_counts))
  let credentials := topBy 50 (groupSum
    (rows.flatMap (fun p => p.2.credential_counts)))
  let paths := topBy 50 (groupSum (rows.flatMap (fun p => p.2.path_counts)))
  { total := total
    services := services.map (fun p =>
      { service := p.1, count := p.2,
        percentage := if 0 < total then (p.2 : Rat) / (total : Rat) * 100 else 0 })
    credentials := credentials.map (fun p =>
      { username := p.1.1, password := p.1.2, count := p.2 })
    paths := paths.map (fun p => { path := p.1, count := p.2 }) }

/-- `Database::get_rollup_stats` (src/db/mod.rs lines 323-401): rollup
rows for the range, falling back to the live query when none exist. -/
def get_rollup_stats (db : Db) (since_ts before_ts : Int) : StatsResponse :=
  let rows := rollupRowsInRange db since_ts before_ts
  if rows.isEmpty then get_live_stats db since_ts
  else rollupCombine rows

/-- `Database::get_stats_hybrid` (src/db/mod.rs lines 294-320).  `now` is
`Utc::now().timestamp_millis()`; `todayStart` is today's UTC midnight in
ms, both passed explicitly. -/
def get_stats_hybrid (db : Db) (now todayStart : Int) (since_hours : Int) :
    StatsResponse :=
  let yesterday_start := todayStart - 86400 * 1000
  if since_hours = 24 then get_rollup_stats db yesterday_start todayStart
  else
    let since_ts := now - since_hours * 3600 * 1000
    let since_day_bucket := ts_to_day_bucket since_ts
    let first_complete_day := since_day_bucket + 86400 * 1000
    if first_complete_day < todayStart then
      get_rollup_stats db first_complete_day todayStart
    else
      { total := 0, services := [], credentials := [], paths := [] }

/-! ### Write buffer (src/db/write_buffer.rs)

The unbounded channel, the batching task and the flush are embedded as a
state machine driven by a trace of actions; `oracle` decides whether the
`n`-th flush transaction commits or fails. -/

inductive BufAction where
  | recv (e : AttackEvent)
  | tick
  deriving DecidableEq, Repr

/-- State of `write_buffer_task`: the in-memory batch, the `requests`
table, and how many flushes have happened (index into the oracle). -/
structure BufState where
  buffer : List AttackEvent
  requests : List AttackEvent
  flushCount : Nat
  deriving DecidableEq, Repr

/-- `fn flush_batch` (src/db/write_buffer.rs lines 69-86):
`batch_insert_events` in one transaction, then `buffer.clear()` on both
success and failure — events are lost on failure, no retry. -/
def flush_batch (oracle : Nat → Bool) (s : BufState) : BufState :=
  { buffer := []
    requests := batch_insert_events (oracle s.flushCount) s.buffer s.requests
    flushCount := s.flushCount + 1 }

/-- One `tokio::select!` round of `write_buffer_task`: a received event is
buffered and flushed when the batch reaches 100; a timer tick flushes a
non-empty buffer. -/
def bufStep (oracle : Nat → Bool) (s : BufState) : BufAction → BufState
  | .recv e =>
    let s' : BufState := { s with buffer := s.buffer ++ [e] }
    if 100 ≤ s'.buffer.length then flush_batch oracle s' else s'
  | .tick => if s.buffer.isEmpty then s else flush_batch oracle s

/-- The write-buffer task run on a whole trace from the initial state. -/
def bufRun (oracle : Nat → Bool) (acts : List BufAction) : BufState :=
  acts.foldl (bufStep oracle) ⟨[], [], 0⟩

/-- The events a trace sends into the channel, in order. -/
def eventsOf : List BufAction → List AttackEvent
  | [] => []
  | .recv e :: t => e :: eventsOf t
  | .tick :: t => eventsOf t

/-! ### HTTP front-end (src/web/mod.rs, src/web/routes.rs) -/

/-- The handlers a request can be dispatched to. -/
inductive RouteTag where
  | index | statsPage | robotsTxt | sseEvents | apiStats | apiRecent
  | apiCountries | apiLocations | staticFiles | catchAll
  deriving DecidableEq, Repr

/-- The router built in `start_server` (src/web/mod.rs lines 215-234):
exact-path routes, the `/static/*path` wildcard, and the fallback. -/
def routeFor (path : String) : RouteTag :=
  if path = "/" then .index
  else if path = "/stats" then .statsPage
  else if path = "/robots.txt" then .robotsTxt
  else if path = "/events" then .sseEvents
  else if path = "/api/stats" then .apiStats
  else if path = "/api/recent" then .apiRecent
  else if path = "/api/countries" then .apiCountries
  else if path = "/api/locations" then .apiLocations
  else if "/static/".data.isPrefixOf path.data then .staticFiles
  else .catchAll

/-- `ALLOWED_HOURS` (src/web/routes.rs line 56). -/
def ALLOWED_HOURS : List Int := [24, 168, 720, 8760]

structure ApiError where
  error : String
  deriving DecidableEq, Repr

/-- `fn validate_hours` (src/web/routes.rs lines 59-67). -/
def validate_hours (hours : Int) : Except ApiError Int :=
  if hours ∈ ALLOWED_HOURS then .ok hours
  else .error ⟨"Invalid hours value '" ++ toString hours ++
    "'. Allowed: 24, 168, 720, 8760"⟩

/-- `fn default_hours` (src/web/routes.rs line 50): `serde` default for a
missing `hours` query parameter. -/
def default_hours : Int := 720

/-- An HTTP reply, as far as the claims observe it: pages keep only their
route, API replies keep status and the JSON `error` field, the catch-all
echo page keeps its status (bodies are modelled by the query functions
above). -/
inductive HttpReply where
  | page (tag : RouteTag)
  | apiJson (status : Nat) (errorField : Option String)
  | echoPage (status : Nat)
  deriving DecidableEq, Repr

/-- The shared gate of every hours-parameterised API handler
(src/web/routes.rs `api_stats`/`api_countries`/`api_locations`, and the
unrouted `api_top_ips_requests`/`api_top_ips_bandwidth`/`api_total_bytes`):
`validate_hours` then the query, `ApiError` rendering as HTTP 400 JSON. -/
def hourGate (hoursParam : Option Int) : HttpReply :=
  match validate_hours (hoursParam.getD default_hours) with
  | .ok _ => .apiJson 200 none
  | .error e => .apiJson 400 (some e.error)

/-- Dispatch plus handler outcome for one request. -/
def respond (path : String) (hoursParam : Option Int) : HttpReply :=
  match routeFor path with
  | .apiStats => hourGate hoursParam
  | .apiCountries => hourGate hoursParam
  | .apiLocations => hourGate hoursParam
  | .apiRecent => .apiJson 200 none
  | .catchAll => .echoPage 200
  | t => .page t

/-! ### Handler event sinks (src/handlers/telnet.rs, ftp.rs, tcp.rs)

Each of these handlers ends its session by building one `AttackEvent`,
inserting it directly with `db.insert_event`, and publishing it on the
event bus.  The observable system state is the store, the write-buffer
channel (C4), and the bus publish log (C5). -/

structure SysState where
  store : List AttackEvent
  writeQueue : List AttackEvent
  bus : List AttackEvent
  deriving DecidableEq, Repr

/-- The event built at the end of `handle_telnet_session`
(src/handlers/telnet.rs lines 272-292). -/
def telnetSessionEvent (now : Int) (ip : String) (port : Nat)
    (username password : String) (commands : List String)
    (geo : Option GeoLoc) : AttackEvent :=
  let request :=
    if username ≠ "" then
      "Telnet login: " ++ username ++ ":" ++ password ++ " from " ++ ip
    else "Telnet connection from " ++ ip
  let event := AttackEvent.new now ip "telnet" port request
  let event :=
    if username ≠ "" then event.with_credentials username password else event
  let event :=
    if commands ≠ [] then
      event.with_payload (bytesOfString (String.intercalate "\n" commands))
    else event
  match geo with
  | some loc => event.with_geo loc.country_code loc.latitude loc.longitude
  | none => event

/-- End of `handle_telnet_session` (src/handlers/telnet.rs lines 294-298):
`db.insert_event(&event)` then `event_bus.publish(event)`. -/
def handle_telnet_session_end (now : Int) (ip : String) (port : Nat)
    (username password : String) (commands : List String)
    (geo : Option GeoLoc) (s : SysState) : SysState :=
  let event := telnetSessionEvent now ip port username password commands geo
  { s with store := s.store ++ [event], bus := s.bus ++ [event] }

/-- The event built at the end of `handle_ftp_session`
(src/handlers/ftp.rs lines 131-151). -/
def ftpSessionEvent (now : Int) (ip : String) (port : Nat)
    (username password : String) (commands : List String)
    (geo : Option GeoLoc) : AttackEvent :=
  let request :=
    if username ≠ "" then
      "FTP login: " ++ username ++ ":" ++ password ++ " from " ++ ip
    else "FTP connection from " ++ ip
  let event := AttackEvent.new now ip "ftp" port request
  let event :=
    if username ≠ "" then event.with_credentials username password else event
  let event :=
    if commands ≠ [] then
      event.with_payload (bytesOfString (String.intercalate "\n" commands))
    else event
  match geo with
  | some loc => event.with_geo loc.country_code loc.latitude loc.longitude
  | none => event

/-- End of `handle_ftp_session` (src/handlers/ftp.rs lines 153-156). -/
def handle_ftp_session_end (now : Int) (ip : String) (port : Nat)
    (username password : String) (commands : List String)
    (geo : Option GeoLoc) (s : SysState) : SysState :=
  let event := ftpSessionEvent now ip port username password commands geo
  { s with store := s.store ++ [event], bus := s.bus ++ [event] }

/-- The event built by the generic TCP per-connection task
(src/handlers/tcp.rs lines 80-90). -/
def tcpConnectionEvent (now : Int) (ip service : String)
    (port peerPort : Nat) (payload : Option (List Nat)) : AttackEvent :=
  let request := "Connection from " ++ ip ++ ":" ++ toString peerPort ++
    " to port " ++ toString port
  let event := AttackEvent.new now ip service port request
  match payload with
  | some p => event.with_payload p
  | none => event

/-- End of the generic TCP task (src/handlers/tcp.rs lines 92-96):
`db.insert_event(&event)` then `event_bus.publish(event)`. -/
def tcpConnectionEnd (now : Int) (ip service : String)
    (port peerPort : Nat) (payload : Option (List Nat)) (s : SysState) :
    SysState :=
  let event := tcpConnectionEvent now ip service port peerPort payload
  { s with store := s.store ++ [event], bus := s.bus ++ [event] }

theorem loop_nil (r : List Nat) (i s : Bool) :
    readTelnetLineLoop [] r i s = none := by
  rw [readTelnetLineLoop.eq_def]

theorem loop_subneg_iacByte (rest r : List Nat) (i : Bool) :
    readTelnetLineLoop (255 :: rest) r i true =
      readTelnetLineLoop rest r true true := by
  rw [readTelnetLineLoop.eq_def]; simp

theorem loop_subneg_se (rest r : List Nat) :
    readTelnetLineLoop (240 :: rest) r true true =
      readTelnetLineLoop rest r false false := by
  rw [readTelnetLineLoop.eq_def]; simp

theorem loop_subneg_other (b : Nat) (rest r : List Nat) (i : Bool)
    (hb : b ≠ 255) (hse : ¬(i = true ∧ b = 240)) :
    readTelnetLineLoop (b :: rest) r i true =
      readTelnetLineLoop rest r false true := by
  rw [readTelnetLineLoop.eq_def]; simp [hb, hse]

theorem loop_iac_escaped (rest r : List Nat) :
    readTelnetLineLoop (255 :: rest) r true false =
      readTelnetLineLoop rest (r ++ [255]) false false := by
  rw [readTelnetLineLoop.eq_def]; simp

theorem loop_iac_opt_nil (b : Nat) (r : List Nat) (hb : b ≠ 255)
    (hopt : b = 251 ∨ b = 252 ∨ b = 253 ∨ b = 254) :
    readTelnetLineLoop [b] r true false = none := by
  rw [readTelnetLineLoop.eq_def]; simp [hb, hopt, loop_nil]

theorem loop_iac_opt_cons (b d : Nat) (rest3 r : List Nat) (hb : b ≠ 255)
    (hopt : b = 251 ∨ b = 252 ∨ b = 253 ∨ b = 254) :
    readTelnetLineLoop (b :: d :: rest3) r true false =
      readTelnetLineLoop rest3 r false false := by
  rw [readTelnetLineLoop.eq_def]; simp [hb, hopt]

theorem loop_iac_sb (rest r : List Nat) :
    readTelnetLineLoop (250 :: rest) r true false =
      readTelnetLineLoop rest r false true := by
  rw [readTelnetLineLoop.eq_def]; simp

theorem loop_iac_other (b : Nat) (rest r : List Nat) (hb : b ≠ 255)
    (hopt : ¬(b = 251 ∨ b = 252 ∨ b = 253 ∨ b = 254)) (hsb : b ≠ 250) :
    readTelnetLineLoop (b :: rest) r true false =
      readTelnetLineLoop rest r false false := by
  rw [readTelnetLineLoop.eq_def]; simp [hb, hopt, hsb]

theorem loop_norm_iac (rest r : List Nat) :
    readTelnetLineLoop (255 :: rest) r false false =
      readTelnetLineLoop rest r true false := by
  rw [readTelnetLineLoop.eq_def]; simp

theorem loop_norm_nl_empty (b : Nat) (rest : List Nat) (hb : b ≠ 255)
    (hnl : b = 10 ∨ b = 13) :
    readTelnetLineLoop (b :: rest) [] false false =
      readTelnetLineLoop rest [] false false := by
  rw [readTelnetLineLoop.eq_def]; simp [hb, hnl]

theorem loop_norm_nl_done (b : Nat) (rest r : List Nat) (hb : b ≠ 255)
    (hnl : b = 10 ∨ b = 13) (hr : r ≠ []) :
    readTelnetLineLoop (b :: rest) r false false = some r := by
  rw [readTelnetLineLoop.eq_def]; simp [hb, hnl, hr]

theorem loop_norm_print (b : Nat) (rest r : List Nat) (hb : b ≠ 255)
    (hnl : ¬(b = 10 ∨ b = 13)) (hpr : 32 ≤ b ∧ b < 127) :
    readTelnetLineLoop (b :: rest) r false false =
      readTelnetLineLoop rest (r ++ [b]) false false := by
  rw [readTelnetLineLoop.eq_def]; simp [hb, hnl, hpr]

theorem loop_norm_skip (b : Nat) (rest r : List Nat) (hb : b ≠ 255)
    (hnl : ¬(b = 10 ∨ b = 13)) (hpr : ¬(32 ≤ b ∧ b < 127)) :
    readTelnetLineLoop (b :: rest) r false false =
      readTelnetLineLoop rest r false false := by
  rw [readTelnetLineLoop.eq_def]; simp [hb, hnl, hpr]

/-- In subnegotiation mode the loop consumes exactly the bytes that
`skipSubneg` skips, touching neither the line nor the output. -/
theorem readTelnetLineLoop_subneg (l : List Nat) (result : List Nat)
    (inIac : Bool) :
    readTelnetLineLoop l result inIac true =
      readTelnetLineLoop (skipSubneg inIac l) result false false := by
  induction l generalizing inIac with
  | nil => simp [skipSubneg, loop_nil]
  | cons b rest ih =>
    by_cases hb : b = 255
    · subst hb
      rw [loop_subneg_iacByte, ih true]
      simp [skipSubneg]
    · by_cases hse : inIac = true ∧ b = 240
      · obtain ⟨hi, hb240⟩ := hse
        subst hi; subst hb240
        rw [loop_subneg_se]
        simp [skipSubneg, hb]
      · rw [loop_subneg_other b rest result inIac hb hse, ih false]
        have : skipSubneg inIac (b :: rest) = skipSubneg false rest := by
          rw [skipSubneg]
          simp [hb, hse]
        rw [this]

theorem removeIac_nil : removeIac [] = [] := by
  rw [removeIac.eq_def]

theorem removeIac_iac_nil : removeIac [255] = [] := by
  rw [removeIac.eq_def]; simp

theorem removeIac_iac_escaped (rest2 : List Nat) :
    removeIac (255 :: 255 :: rest2) = 255 :: removeIac rest2 := by
  rw [removeIac.eq_def]; simp

theorem removeIac_iac_opt (c : Nat) (rest2 : List Nat) (hc : c ≠ 255)
    (hopt : c = 251 ∨ c = 252 ∨ c = 253 ∨ c = 254) :
    removeIac (255 :: c :: rest2) = removeIac (rest2.drop 1) := by
  rw [removeIac.eq_def]; simp [hc, hopt]

theorem removeIac_iac_sb (rest2 : List Nat) :
    removeIac (255 :: 250 :: rest2) = removeIac (skipSubneg false rest2) := by
  rw [removeIac.eq_def]; simp

theorem removeIac_iac_other (c : Nat) (rest2 : List Nat) (hc : c ≠ 255)
    (hopt : ¬(c = 251 ∨ c = 252 ∨ c = 253 ∨ c = 254)) (hsb : c ≠ 250) :
    removeIac (255 :: c :: rest2) = removeIac rest2 := by
  rw [removeIac.eq_def]; simp [hc, hopt, hsb]

theorem removeIac_plain (b : Nat) (rest : List Nat) (hb : b ≠ 255) :
    removeIac (b :: rest) = b :: removeIac rest := by
  rw [removeIac.eq_def]; simp [hb]

/-- Fuel-indexed equivalence between the source loop and the spec-side
filter-then-scan decomposition. -/
theorem readTelnetLineLoop_eq_spec (n : Nat) :
    ∀ l acc, l.length ≤ n →
      readTelnetLineLoop l acc false false = lineScanPrintable acc (removeIac l) := by
  induction n with
  | zero =>
    intro l acc h
    have : l = [] := List.eq_nil_of_length_eq_zero (Nat.le_zero.mp h)
    subst this
    simp [loop_nil, removeIac_nil, lineScanPrintable]
  | succ n ih =>
    intro l acc h
    match l with
    | [] => simp [loop_nil, removeIac_nil, lineScanPrintable]
    | b :: rest =>
      have hrest : rest.length ≤ n := by
        simp only [List.length_cons] at h
        omega
      by_cases hb : b = 255
      · subst hb
        rw [loop_norm_iac]
        match rest with
        | [] => simp [loop_nil, removeIac_iac_nil, lineScanPrintable]
        | c :: rest2 =>
          have hrest2 : rest2.length ≤ n := Nat.le_of_succ_le hrest
          by_cases hc : c = 255
          · subst hc
            rw [loop_iac_escaped, removeIac_iac_escaped,
              ih rest2 (acc ++ [255]) hrest2]
            have hkeep : keepByte 255 := Or.inr rfl
            simp [lineScanPrintable, hkeep]
          · by_cases hopt : c = 251 ∨ c = 252 ∨ c = 253 ∨ c = 254
            · rw [removeIac_iac_opt c rest2 hc hopt]
              match rest2 with
              | [] =>
                rw [loop_iac_opt_nil c acc hc hopt]
                simp [removeIac_nil, lineScanPrintable]
              | d :: rest3 =>
                have hrest3 : rest3.length ≤ n := by
                  simp only [List.length_cons] at hrest2
                  omega
                rw [loop_iac_opt_cons c d rest3 acc hc hopt,
                  ih rest3 acc hrest3]
                simp
            · by_cases hsb : c = 250
              · subst hsb
                rw [loop_iac_sb, readTelnetLineLoop_subneg,
                  removeIac_iac_sb]
                have hskip : (skipSubneg false rest2).length ≤ n :=
                  (skipSubneg_length_le false rest2).trans hrest2
                exact ih _ acc hskip
              · rw [loop_iac_other c rest2 acc hc hopt hsb,
                  removeIac_iac_other c rest2 hc hopt hsb]
                exact ih rest2 acc hrest2
      · rw [removeIac_plain b rest hb]
        by_cases hnl : b = 10 ∨ b = 13
        · by_cases hacc : acc = []
          · subst hacc
            rw [loop_norm_nl_empty b rest hb hnl, ih rest [] hrest]
            simp [lineScanPrintable, hnl]
          · rw [loop_norm_nl_done b rest acc hb hnl hacc]
            simp [lineScanPrintable, hnl, hacc]
        · by_cases hpr : 32 ≤ b ∧ b < 127
          · rw [loop_norm_print b rest acc hb hnl hpr,
              ih rest (acc ++ [b]) hrest]
            have hkeep : keepByte b := Or.inl hpr
            simp [lineScanPrintable, hnl, hkeep]
          · rw [loop_norm_skip b rest acc hb hnl hpr, ih rest acc hrest]
            have hkeep : ¬ keepByte b := by
              intro hk
              rcases hk with hk | hk
              · exact hpr hk
              · exact hb hk
            simp [lineScanPrintable, hnl, hkeep]

/-! ### Aggregation lemmas -/

theorem aggregate_day_of_hasRollup (db : Db) (d : Int)
    (h : db.hasRollup d = true) : db.aggregate_day d = db := by
  simp [Db.aggregate_day, h]

theorem aggregate_day_of_count_zero (db : Db) (d : Int)
    (h : countInDay db.requests d = 0) : db.aggregate_day d = db := by
  by_cases h1 : db.hasRollup d = true
  · simp [Db.aggregate_day, h1]
  · simp [Db.aggregate_day, h1, h]

theorem aggregate_day_write (db : Db) (d : Int)
    (h1 : db.hasRollup d = false) (h2 : countInDay db.requests d ≠ 0) :
    db.aggregate_day d =
      { db with statsDaily := db.statsDaily ++
          [(d, rollupRowFor db.requests d (d + 86400 * 1000))] } := by
  have h1' : ¬ db.hasRollup d = true := by simp [h1]
  have hany : (db.statsDaily.any (fun p => p.1 == d)) = false := h1
  simp [Db.aggregate_day, h1', h2, upsertRollup, hany]

theorem hasRollup_append_self (requests : List AttackEvent)
    (stats : List (Int × RollupRow)) (d : Int) (row : RollupRow) :
    Db.hasRollup ⟨requests, stats ++ [(d, row)]⟩ d = true := by
  simp [Db.hasRollup]

/-- The written row's scalar totals are the raw `COUNT(*)` and
`SUM(request_size)` of the day, by construction. -/
theorem rollupRowFor_totals (requests : List AttackEvent) (d : Int) :
    (rollupRowFor requests d (d + 86400 * 1000)).total_requests =
      countInDay requests d ∧
    (rollupRowFor requests d (d + 86400 * 1000)).total_bytes =
      sumSizeInDay requests d :=
  ⟨rfl, rfl⟩

/-- C4's invariant: every `stats_daily` row's scalar totals agree with the
raw events of its bucket. -/
def RollupOk (db : Db) : Prop :=
  ∀ p ∈ db.statsDaily,
    p.2.total_requests = countInDay db.requests p.1 ∧
    p.2.total_bytes = sumSizeInDay db.requests p.1

theorem eventsInRange_append_single (l : List AttackEvent) (e : AttackEvent)
    (s t : Int) (h : ¬(s ≤ e.timestamp ∧ e.timestamp < t)) :
    eventsInRange (l ++ [e]) s t = eventsInRange l s t := by
  unfold eventsInRange
  rw [List.filter_append]
  have hf : (fun ev => decide (s ≤ ev.timestamp ∧ ev.timestamp < t)) e = false :=
    decide_eq_false h
  simp [List.filter_cons, hf]
  push_neg at h
  exact h

/-- C4: for any day bucket D with a rollup row R in `stats_daily`,
`R.total_requests` is the count of raw events with timestamp in
[D, D+86400000) and `R.total_bytes` is the sum of their `request_size`
values.  The invariant holds of the empty store, is preserved by
`aggregate_day` (the row it writes is computed from exactly those
queries), and is preserved by inserting any event whose timestamp lies in
no rolled-up bucket — which covers every event the system inserts, since
rows exist only for completed days and events are stamped with `now`. -/
theorem c4_rollup_correctness :
    RollupOk ⟨[], []⟩
    ∧ (∀ (db : Db) (d : Int), RollupOk db → RollupOk (db.aggregate_day d))
    ∧ (∀ (db : Db) (e : AttackEvent),
        (∀ p ∈ db.statsDaily,
          e.timestamp < p.1 ∨ p.1 + 86400 * 1000 ≤ e.timestamp) →
        RollupOk db → RollupOk (db.insert_event e)) := by
  refine ⟨?_, ?_, ?_⟩
  · intro p hp
    exact absurd hp (List.not_mem_nil p)
  · intro db d h
    by_cases h1 : db.hasRollup d = true
    · rw [aggregate_day_of_hasRollup db d h1]
      exact h
    · have h1' : db.hasRollup d = false := by
        cases hx : db.hasRollup d
        · rfl
        · exact absurd hx h1
      by_cases h2 : countInDay db.requests d = 0
      · rw [aggregate_day_of_count_zero db d h2]
        exact h
      · rw [aggregate_day_write db d h1' h2]
        intro p hp
        rcases List.mem_append.mp hp with hmem | hmem
        · exact h p hmem
        · have hp' : p = (d, rollupRowFor db.requests d (d + 86400 * 1000)) := by
            simpa using hmem
          subst hp'
          exact rollupRowFor_totals db.requests d
  · intro db e hfresh h p hp
    have hp' : p ∈ db.statsDaily := hp
    have hrange : ¬(p.1 ≤ e.timestamp ∧ e.timestamp < p.1 + 86400 * 1000) := by
      rcases hfresh p hp' with hlt | hge
      · intro hc
        omega
      · intro hc
        omega
    have heq := eventsInRange_append_single db.requests e p.1
      (p.1 + 86400 * 1000) hrange
    have hcount : countInDay (db.insert_event e).requests p.1 =
        countInDay db.requests p.1 := by
      simp only [Db.insert_event, countInDay]
      rw [heq]
    have hsum : sumSizeInDay (db.insert_event e).requests p.1 =
        sumSizeInDay db.requests p.1 := by
      simp only [Db.insert_event, sumSizeInDay]
      rw [heq]
    rw [hcount, hsum]
    exact h p hp'

/-- C4 witness: the invariant instantiated on a concrete store. -/
theorem c4_rollup_correctness_witness :
    RollupOk (Db.aggregate_day
      ⟨[AttackEvent.new 1000 "203.0.113.9" "ssh" 22 "x"], []⟩ 0) :=
  c4_rollup_correctness.2.1
    ⟨[AttackEvent.new 1000 "203.0.113.9" "ssh" 22 "x"], []⟩ 0
    (by intro p hp; exact absurd hp (List.not_mem_nil p))

/-- C5 (amended): `aggregate_day` is idempotent as a state transformer —
the second call writes nothing.  When the day has events, the first call
writes the row and the second call finds the bucket present; when the
day has no events, neither call writes and the bucket stays absent. -/
theorem c5_aggregate_day_idempotent :
    (∀ (db : Db) (d : Int),
      (db.aggregate_day d).aggregate_day d = db.aggregate_day d)
    ∧ (∀ (db : Db) (d : Int), db.hasRollup d = false →
        countInDay db.requests d ≠ 0 →
        (db.aggregate_day d).hasRollup d = true)
    ∧ (∀ (db : Db) (d : Int), countInDay db.requests d = 0 →
        db.aggregate_day d = db) := by
  refine ⟨?_, ?_, ?_⟩
  · intro db d
    by_cases h1 : db.hasRollup d = true
    · rw [aggregate_day_of_hasRollup db d h1]
      exact aggregate_day_of_hasRollup db d h1
    · have h1' : db.hasRollup d = false := by
        cases hx : db.hasRollup d
        · rfl
        · exact absurd hx h1
      by_cases h2 : countInDay db.requests d = 0
      · rw [aggregate_day_of_count_zero db d h2]
        exact aggregate_day_of_count_zero db d h2
      · rw [aggregate_day_write db d h1' h2]
        exact aggregate_day_of_hasRollup _ d
          (hasRollup_append_self db.requests db.statsDaily d _)
  · intro db d h1 h2
    rw [aggregate_day_write db d h1 h2]
    exact hasRollup_append_self db.requests db.statsDaily d _
  · intro db d h
    exact aggregate_day_of_count_zero db d h

/-- C5 witness: idempotence and the present-after-write path on a
concrete store holding one event inside bucket 0. -/
theorem c5_aggregate_day_idempotent_witness :
    (Db.aggregate_day (Db.aggregate_day
        ⟨[AttackEvent.new 1000 "203.0.113.9" "ssh" 22 "x"], []⟩ 0) 0).aggregate_day 0 =
      (Db.aggregate_day
        ⟨[AttackEvent.new 1000 "203.0.113.9" "ssh" 22 "x"], []⟩ 0).aggregate_day 0
    ∧ (Db.aggregate_day
        ⟨[AttackEvent.new 1000 "203.0.113.9" "ssh" 22 "x"], []⟩ 0).hasRollup 0 = true :=
  ⟨c5_aggregate_day_idempotent.1 _ 0,
    c5_aggregate_day_idempotent.2.1
      ⟨[AttackEvent.new 1000 "203.0.113.9" "ssh" 22 "x"], []⟩ 0
      (by decide) (by decide)⟩

/-- C5 counterexample: for a day with no events the first call writes no
row, so the second call does not "find the bucket already present in
stats_daily" — it returns through the zero-count check instead. -/
theorem c5_counterexample :
    Db.aggregate_day ⟨[], []⟩ 0 = ⟨[], []⟩
    ∧ (Db.aggregate_day ⟨[], []⟩ 0).hasRollup 0 = false := by
  refine ⟨rfl, ?_⟩
  rfl

/-- C10: a day whose raw-event count is zero is never written: the call
returns leaving the store unchanged; consequently, since the invariant is
preserved by every `aggregate_day` call, every row present in
`stats_daily` has `total_requests ≥ 1`. -/
theorem c10_empty_day_no_row :
    (∀ (db : Db) (d : Int), countInDay db.requests d = 0 →
      db.aggregate_day d = db)
    ∧ (∀ (db : Db) (d : Int),
        (∀ p ∈ db.statsDaily, 1 ≤ p.2.total_requests) →
        ∀ p ∈ (db.aggregate_day d).statsDaily, 1 ≤ p.2.total_requests) := by
  refine ⟨?_, ?_⟩
  · intro db d h
    exact aggregate_day_of_count_zero db d h
  · intro db d h
    by_cases h1 : db.hasRollup d = true
    · rw [aggregate_day_of_hasRollup db d h1]
      exact h
    · have h1' : db.hasRollup d = false := by
        cases hx : db.hasRollup d
        · rfl
        · exact absurd hx h1
      by_cases h2 : countInDay db.requests d = 0
      · rw [aggregate_day_of_count_zero db d h2]
        exact h
      · rw [aggregate_day_write db d h1' h2]
        intro p hp
        rcases List.mem_append.mp hp with hmem | hmem
        · exact h p hmem
        · have hp' : p = (d, rollupRowFor db.requests d (d + 86400 * 1000)) := by
            simpa using hmem
          subst hp'
          have htot : (rollupRowFor db.requests d (d + 86400 * 1000)).total_requests
              = countInDay db.requests d := rfl
          have hnonneg : 0 ≤ countInDay db.requests d := by
            unfold countInDay
            positivity
          simp only [htot]
          omega

/-! ### SSH auth event lemmas (C1) -/

theorem log_auth_event_fields (now : Int) (ip : String) (m : Option String)
    (geo : Option GeoLoc) (u d : String) :
    (log_auth_event now ip m geo u d).service = "ssh"
    ∧ (log_auth_event now ip m geo u d).port = 22
    ∧ (log_auth_event now ip m geo u d).request_size =
        (rustLen u + rustLen d + 50) % 2 ^ 32 := by
  cases geo <;>
    by_cases hm : m = some "password" <;>
      rcases hsp : stripPre (u ++ ":") d with _ | pw <;>
        simp [log_auth_event, hm, hsp, AttackEvent.new,
          AttackEvent.with_credentials, AttackEvent.with_request_size,
          AttackEvent.with_geo]

/-- C1 counterexample: the password attempt admin/admin123 yields
`request_size = 69`, not `len("admin") + len("admin123") + 50 = 63` as
the claim states — the code adds the length of the full
`"user:password"` detail string, not of the password alone. -/
theorem c1_counterexample :
    (auth_password_event 0 "203.0.113.5" none "admin" "admin123").request_size
      = 69
    ∧ ¬ (auth_password_event 0 "203.0.113.5" none "admin" "admin123").request_size
      = 63 := by
  constructor
  · decide
  · decide

/-- C1 (amended): every SSH auth event has service `"ssh"`, port 22, and
`request_size = (len(username) + len(auth_detail) + 50) mod 2^32`, where
`auth_detail` is `"username:password"` for password auth (so admin/admin123
yields 69), the username itself for none auth, and
`"username@fingerprint"` for publickey auth. -/
theorem c1_ssh_auth_event_size (now : Int) (ip : String)
    (geo : Option GeoLoc) (user password fingerprint : String) :
    ((auth_password_event now ip geo user password).service = "ssh"
      ∧ (auth_password_event now ip geo user password).port = 22
      ∧ (auth_password_event now ip geo user password).request_size =
          (rustLen user + rustLen (user ++ ":" ++ password) + 50) % 2 ^ 32)
    ∧ ((auth_none_event now ip geo user).service = "ssh"
      ∧ (auth_none_event now ip geo user).port = 22
      ∧ (auth_none_event now ip geo user).request_size =
          (rustLen user + rustLen user + 50) % 2 ^ 32)
    ∧ ((auth_publickey_event now ip geo user fingerprint).service = "ssh"
      ∧ (auth_publickey_event now ip geo user fingerprint).port = 22
      ∧ (auth_publickey_event now ip geo user fingerprint).request_size =
          (rustLen user + rustLen (user ++ "@" ++ fingerprint) + 50) % 2 ^ 32) :=
  ⟨log_auth_event_fields now ip (some "password") geo user
      (user ++ ":" ++ password),
    log_auth_event_fields now ip (some "none") geo user user,
    log_auth_event_fields now ip (some "publickey") geo user
      (user ++ "@" ++ fingerprint)⟩

/-! ### Telnet claim theorems (C3) -/

/-- C3 counterexample: on input `[0x09, 'a', LF]` the reader produces the
line `"a"` (the tab is dropped by the printable-ASCII restriction), while
the claim's transform — the input minus IAC sequences up to the first
non-empty line terminator — yields `[0x09, 'a']`. -/
theorem c3_counterexample :
    read_telnet_line [9, 97, 10] = some [97]
    ∧ specIacTransparencyLine [9, 97, 10] = some [9, 97]
    ∧ read_telnet_line [9, 97, 10] ≠ specIacTransparencyLine [9, 97, 10] := by
  have h2 : specIacTransparencyLine [9, 97, 10] = some [9, 97] := by
    simp [specIacTransparencyLine, removeIac, lineScanAll]
  refine ⟨by decide, h2, ?_⟩
  rw [h2]
  decide

/-- C3 (amended): for every Telnet input byte sequence, the line produced
by the reader equals the input after removing IAC command sequences (IAC
plus command byte, IAC WILL/WONT/DO/DONT plus one option byte, IAC SB
subnegotiation up to IAC SE), interpreting `0xFF 0xFF` as a single
literal `0xFF`, and keeping only printable ASCII bytes 32..126 (plus the
escaped `0xFF`), up to the first non-empty line terminator. -/
theorem c3_telnet_iac_filter (input : List Nat) :
    read_telnet_line input = specIacPrintableLine input :=
  readTelnetLineLoop_eq_spec input.length input [] le_rfl

/-! ### Hybrid stats lemmas (C2) -/

theorem ts_to_day_bucket_aligned (x : Int) (h : x % 86400000 = 0) :
    ts_to_day_bucket x = x := by
  obtain ⟨k, hk⟩ := Int.dvd_of_emod_eq_zero h
  subst hk
  unfold ts_to_day_bucket
  rw [Int.mul_tdiv_cancel_left k (by norm_num)]
  ring

theorem filter_key_eq_singleton {β : Type} (l : List (Int × β)) (k : Int)
    (v : β) (hN : (l.map Prod.fst).Nodup) (hm : (k, v) ∈ l) :
    l.filter (fun p => decide (p.1 = k)) = [(k, v)] := by
  induction l with
  | nil => cases hm
  | cons a t ih =>
    rw [List.map_cons, List.nodup_cons] at hN
    rcases List.mem_cons.mp hm with ha | ht
    · subst ha
      have htail : t.filter (fun p => decide (p.1 = k)) = [] := by
        rw [List.filter_eq_nil_iff]
        intro p hp hdec
        have hpk : p.1 = k := of_decide_eq_true hdec
        have h1 : p.1 ∈ List.map Prod.fst t := List.mem_map_of_mem Prod.fst hp
        exact hN.1 (hpk ▸ h1)
      simp [List.filter_cons, htail]
    · have hak : a.1 ≠ k := by
        intro hc
        have h1 : (k, v).1 ∈ List.map Prod.fst t :=
          List.mem_map_of_mem Prod.fst ht
        exact hN.1 (hc ▸ h1)
      rw [List.filter_cons]
      simp only [hak, decide_eq_false, if_false, decide_eq_true_eq, if_neg,
        not_false_eq_true]
      exact ih hN.2 ht

/-- C2: for `hours = 24` the stats query is exactly the rollup lookup on
yesterday's UTC-day bucket: the rows selected are precisely those with
`day_bucket` equal to yesterday's midnight (given the invariants that
`stats_daily` buckets are day-aligned and unique), the fall-back to the
live raw-event query happens exactly when no such row exists, and when
the row exists the response is its combined tables with `total` equal to
the row's `total_requests`. -/
theorem c2_stats_hybrid_24h (db : Db) (now todayStart : Int)
    (hA : ∀ p ∈ db.statsDaily, p.1 % 86400000 = 0)
    (hT : todayStart % 86400000 = 0)
    (hN : (db.statsDaily.map Prod.fst).Nodup) :
    get_stats_hybrid db now todayStart 24 =
      get_rollup_stats db (todayStart - 86400 * 1000) todayStart
    ∧ rollupRowsInRange db (todayStart - 86400 * 1000) todayStart =
        db.statsDaily.filter (fun p => decide (p.1 = todayStart - 86400 * 1000))
    ∧ (db.statsDaily.filter
          (fun p => decide (p.1 = todayStart - 86400 * 1000)) = [] →
        get_stats_hybrid db now todayStart 24 =
          get_live_stats db (todayStart - 86400 * 1000))
    ∧ (∀ row, (todayStart - 86400 * 1000, row) ∈ db.statsDaily →
        get_stats_hybrid db now todayStart 24 =
          rollupCombine [(todayStart - 86400 * 1000, row)]
        ∧ (rollupCombine [(todayStart - 86400 * 1000, row)]).total =
            row.total_requests) := by
  have h24 : get_stats_hybrid db now todayStart 24 =
      get_rollup_stats db (todayStart - 86400 * 1000) todayStart := by
    simp [get_stats_hybrid]
  have hyb : ts_to_day_bucket (todayStart - 86400 * 1000) =
      todayStart - 86400 * 1000 :=
    ts_to_day_bucket_aligned _ (by omega)
  have hts : ts_to_day_bucket todayStart = todayStart :=
    ts_to_day_bucket_aligned _ hT
  have hrows : rollupRowsInRange db (todayStart - 86400 * 1000) todayStart =
      db.statsDaily.filter
        (fun p => decide (p.1 = todayStart - 86400 * 1000)) := by
    unfold rollupRowsInRange
    rw [hyb, hts]
    apply List.filter_congr
    intro p hp
    have hmod := hA p hp
    apply decide_eq_decide.mpr
    omega
  refine ⟨h24, hrows, ?_, ?_⟩
  · intro hempty
    rw [h24]
    unfold get_rollup_stats
    rw [hrows, hempty]
    rfl
  · intro row hmem
    have hsingle : db.statsDaily.filter
        (fun p => decide (p.1 = todayStart - 86400 * 1000)) =
        [(todayStart - 86400 * 1000, row)] :=
      filter_key_eq_singleton db.statsDaily _ row hN hmem
    constructor
    · rw [h24]
      unfold get_rollup_stats
      rw [hrows, hsingle]
      rfl
    · simp [rollupCombine]

/-- C2 witness: the theorem instantiated on a store with a single aligned
rollup row for yesterday. -/
theorem c2_stats_hybrid_24h_witness :
    get_stats_hybrid
        ⟨[], [(86400000, ⟨7, [("ssh", 7)], [], [], [], [], 350, [], []⟩)]⟩
        200000000 172800000 24 =
      get_rollup_stats
        ⟨[], [(86400000, ⟨7, [("ssh", 7)], [], [], [], [], 350, [], []⟩)]⟩
        86400000 172800000 :=
  (c2_stats_hybrid_24h
    ⟨[], [(86400000, ⟨7, [("ssh", 7)], [], [], [], [], 350, [], []⟩)]⟩
    200000000 172800000 (by decide) (by decide) (by decide)).1

/-! ### HTTP front-end lemmas (C6, C8) -/

theorem hourGate_invalid (h : Int) (hm : h ∉ ALLOWED_HOURS) :
    hourGate (some h) = HttpReply.apiJson 400
      (some ("Invalid hours value '" ++ toString h ++
        "'. Allowed: 24, 168, 720, 8760")) := by
  simp [hourGate, validate_hours, hm]

theorem hourGate_valid (h : Int) (hm : h ∈ ALLOWED_HOURS) :
    hourGate (some h) = HttpReply.apiJson 200 none := by
  simp [hourGate, validate_hours, hm]

/-- C6 counterexample: a request to `/api/total_bytes` with the invalid
`hours = 5` is answered by the catch-all fallback with HTTP 200 (the
route is not registered), not with HTTP 400 as the claim states. -/
theorem c6_counterexample :
    respond "/api/total_bytes" (some 5) = HttpReply.echoPage 200 := by
  decide

/-- C6 (amended): for the three registered hours-parameterised endpoints
(`/api/stats`, `/api/countries`, `/api/locations`), an `hours` value
outside {24, 168, 720, 8760} yields HTTP 400 with a JSON `error` field
and the four allowed values proceed with HTTP 200; `/api/top_ips_requests`,
`/api/top_ips_bandwidth` and `/api/total_bytes` implement the same
validation in their handler functions but are not registered with the
router, so requests to those paths are answered by the catch-all
fallback with HTTP 200 regardless of `hours`. -/
theorem c6_hours_validation :
    (∀ h : Int, h ∉ ALLOWED_HOURS →
      ∀ path ∈ ["/api/stats", "/api/countries", "/api/locations"],
        respond path (some h) = HttpReply.apiJson 400
          (some ("Invalid hours value '" ++ toString h ++
            "'. Allowed: 24, 168, 720, 8760")))
    ∧ (∀ h : Int, h ∈ ALLOWED_HOURS →
      ∀ path ∈ ["/api/stats", "/api/countries", "/api/locations"],
        respond path (some h) = HttpReply.apiJson 200 none)
    ∧ (∀ q : Option Int,
      ∀ path ∈ ["/api/top_ips_requests", "/api/top_ips_bandwidth",
          "/api/total_bytes"],
        respond path q = HttpReply.echoPage 200) := by
  have hstats : ∀ q, respond "/api/stats" q = hourGate q := fun _ => rfl
  have hcountries : ∀ q, respond "/api/countries" q = hourGate q :=
    fun _ => rfl
  have hlocations : ∀ q, respond "/api/locations" q = hourGate q :=
    fun _ => rfl
  refine ⟨?_, ?_, ?_⟩
  · intro h hm path hp
    fin_cases hp
    · rw [hstats]
      exact hourGate_invalid h hm
    · rw [hcountries]
      exact hourGate_invalid h hm
    · rw [hlocations]
      exact hourGate_invalid h hm
  · intro h hm path hp
    fin_cases hp
    · rw [hstats]
      exact hourGate_valid h hm
    · rw [hcountries]
      exact hourGate_valid h hm
    · rw [hlocations]
      exact hourGate_valid h hm
  · intro q path hp
    fin_cases hp
    · rfl
    · rfl
    · rfl

/-- C6 witness: the validation instantiated at `hours = 5` (rejected) and
`hours = 168` (accepted) on `/api/stats`. -/
theorem c6_hours_validation_witness :
    respond "/api/stats" (some 5) = HttpReply.apiJson 400
      (some "Invalid hours value '5'. Allowed: 24, 168, 720, 8760")
    ∧ respond "/api/stats" (some 168) = HttpReply.apiJson 200 none :=
  ⟨c6_hours_validation.1 5 (by decide) "/api/stats" (by simp),
    c6_hours_validation.2.1 168 (by decide) "/api/stats" (by simp)⟩

/-- C8: the router of `start_server` registers `/`, `/stats`,
`/robots.txt`, `/events`, `/api/stats`, `/api/recent`, `/api/countries`,
`/api/locations` and `/static/*path`, but NOT `/api/top_ips_requests`,
`/api/top_ips_bandwidth` or `/api/total_bytes` — those three paths fall
through to the catch-all fallback even though their dedicated handlers
exist in routes.rs. -/
theorem c8_router_registration :
    routeFor "/api/top_ips_requests" = RouteTag.catchAll
    ∧ routeFor "/api/top_ips_bandwidth" = RouteTag.catchAll
    ∧ routeFor "/api/total_bytes" = RouteTag.catchAll
    ∧ routeFor "/" = RouteTag.index
    ∧ routeFor "/stats" = RouteTag.statsPage
    ∧ routeFor "/robots.txt" = RouteTag.robotsTxt
    ∧ routeFor "/events" = RouteTag.sseEvents
    ∧ routeFor "/api/stats" = RouteTag.apiStats
    ∧ routeFor "/api/recent" = RouteTag.apiRecent
    ∧ routeFor "/api/countries" = RouteTag.apiCountries
    ∧ routeFor "/api/locations" = RouteTag.apiLocations
    ∧ routeFor "/static/app.js" = RouteTag.staticFiles
    ∧ respond "/api/top_ips_requests" (some 24) = HttpReply.echoPage 200 := by
  decide

/-! ### Write-buffer lemmas (C7) -/

theorem eventsOf_cons (a : BufAction) (t : List BufAction) :
    eventsOf (a :: t) = eventsOf [a] ++ eventsOf t := by
  cases a <;> simp [eventsOf]

theorem bufStep_sublist (oracle : Nat → Bool) (s : BufState) (a : BufAction) :
    ((bufStep oracle s a).requests ++ (bufStep oracle s a).buffer).Sublist
      (s.requests ++ s.buffer ++ eventsOf [a]) := by
  cases a with
  | recv e =>
    simp only [bufStep]
    split
    · simp only [flush_batch, batch_insert_events]
      split
      · simp_all
      · split
        · simp [eventsOf, List.append_assoc]
        · refine List.Sublist.trans ?_ (List.sublist_append_left _ _)
          simp [eventsOf, List.append_assoc]
    · simp [eventsOf, List.append_assoc]
  | tick =>
    simp only [bufStep]
    split
    · rename_i hemp
      simp [eventsOf, List.isEmpty_iff.mp hemp]
    · simp only [flush_batch, batch_insert_events]
      split
      · rename_i hemp hemp2
        simp_all
      · split
        · simp [eventsOf]
        · refine List.Sublist.trans ?_ (List.sublist_append_left _ _)
          simp [eventsOf]

theorem bufRun_from_sublist (oracle : Nat → Bool) (acts : List BufAction) :
    ∀ s : BufState,
      ((acts.foldl (bufStep oracle) s).requests ++
        (acts.foldl (bufStep oracle) s).buffer).Sublist
        (s.requests ++ s.buffer ++ eventsOf acts) := by
  induction acts with
  | nil =>
    intro s
    simp [eventsOf]
  | cons a t ih =>
    intro s
    rw [List.foldl_cons]
    refine (ih (bufStep oracle s a)).trans ?_
    have h1 := (bufStep_sublist oracle s a).append_right (eventsOf t)
    rw [eventsOf_cons]
    simpa [List.append_assoc] using h1

/-- C7: at-most-once writes.  An empty batch is a no-op; a failed flush
rolls the whole transaction back (no row persists) and clears the buffer
without retry; and over any trace with any pattern of flush failures, an
event sent once into the channel is inserted into the store at most
once. -/
theorem c7_at_most_once :
    (∀ (ok : Bool) (requests : List AttackEvent),
      batch_insert_events ok [] requests = requests)
    ∧ (∀ (oracle : Nat → Bool) (s : BufState), oracle s.flushCount = false →
        (flush_batch oracle s).requests = s.requests
        ∧ (flush_batch oracle s).buffer = [])
    ∧ (∀ (oracle : Nat → Bool) (acts : List BufAction) (e : AttackEvent),
        (eventsOf acts).count e ≤ 1 →
        ((bufRun oracle acts).requests).count e ≤ 1) := by
  refine ⟨?_, ?_, ?_⟩
  · intro ok requests
    simp [batch_insert_events]
  · intro oracle s hfail
    constructor
    · simp only [flush_batch, batch_insert_events, hfail]
      split <;> rfl
    · rfl
  · intro oracle acts e hcount
    have hsub : ((bufRun oracle acts).requests ++
        (bufRun oracle acts).buffer).Sublist (eventsOf acts) := by
      have h := bufRun_from_sublist oracle acts ⟨[], [], 0⟩
      simpa [bufRun] using h
    have hsub2 : ((bufRun oracle acts).requests).Sublist (eventsOf acts) :=
      (List.sublist_append_left _ _).trans hsub
    exact (hsub2.count_le e).trans hcount

/-- C7 witness: a trace whose only flush fails; the event is dropped and
the store holds it at most once. -/
theorem c7_at_most_once_witness :
    ((bufRun (fun _ => false)
        [BufAction.recv (AttackEvent.new 0 "203.0.113.5" "ssh" 22 "x"),
          BufAction.tick]).requests).count
      (AttackEvent.new 0 "203.0.113.5" "ssh" 22 "x") ≤ 1 :=
  c7_at_most_once.2.2 (fun _ => false)
    [BufAction.recv (AttackEvent.new 0 "203.0.113.5" "ssh" 22 "x"),
      BufAction.tick]
    (AttackEvent.new 0 "203.0.113.5" "ssh" 22 "x") (by decide)

/-! ### Handler sink theorems (C9) -/

/-- C9 counterexample: a Telnet session's event is inserted directly into
the store and the write-buffer queue is untouched — contradicting the
claim that the event is pushed into the write buffer and inserted only by
its batching consumer. -/
theorem c9_counterexample :
    (handle_telnet_session_end 0 "198.51.100.7" 23 "root" "hunter2" []
        none ⟨[], [], []⟩).writeQueue = []
    ∧ (handle_telnet_session_end 0 "198.51.100.7" 23 "root" "hunter2" []
        none ⟨[], [], []⟩).store.length = 1 := by
  constructor
  · rfl
  · rfl

/-- C9 (amended): the generic TCP, Telnet and FTP handlers each end a
session by inserting the single event directly into the store with
`insert_event` and publishing it to the event bus; the write buffer is
not involved for these handlers. -/
theorem c9_handler_sinks (now : Int) (ip service : String)
    (port peerPort : Nat) (username password : String)
    (commands : List String) (geo : Option GeoLoc)
    (payload : Option (List Nat)) (s : SysState) :
    ((handle_telnet_session_end now ip port username password commands geo
        s).writeQueue = s.writeQueue
      ∧ (handle_telnet_session_end now ip port username password commands
          geo s).store =
        s.store ++ [telnetSessionEvent now ip port username password
          commands geo]
      ∧ (handle_telnet_session_end now ip port username password commands
          geo s).bus =
        s.bus ++ [telnetSessionEvent now ip port username password
          commands geo])
    ∧ ((handle_ftp_session_end now ip port username password commands geo
        s).writeQueue = s.writeQueue
      ∧ (handle_ftp_session_end now ip port username password commands geo
          s).store =
        s.store ++ [ftpSessionEvent now ip port username password commands
          geo]
      ∧ (handle_ftp_session_end now ip port username password commands geo
          s).bus =
        s.bus ++ [ftpSessionEvent now ip port username password commands
          geo])
    ∧ ((tcpConnectionEnd now ip service port peerPort payload
        s).writeQueue = s.writeQueue
      ∧ (tcpConnectionEnd now ip service port peerPort payload s).store =
        s.store ++ [tcpConnectionEvent now ip service port peerPort payload]
      ∧ (tcpConnectionEnd now ip service port peerPort payload s).bus =
        s.bus ++ [tcpConnectionEvent now ip service port peerPort payload]) :=
  ⟨⟨rfl, rfl, rfl⟩, ⟨rfl, rfl, rfl⟩, ⟨rfl, rfl, rfl⟩⟩

/-- C10 witness: the empty-day no-write applied at a concrete store. -/
theorem c10_empty_day_no_row_witness :
    Db.aggregate_day ⟨[AttackEvent.new 99999999999 "203.0.113.9" "ssh" 22 "x"], []⟩ 0 =
      ⟨[AttackEvent.new 99999999999 "203.0.113.9" "ssh" 22 "x"], []⟩ :=
  c10_empty_day_no_row.1
    ⟨[AttackEvent.new 99999999999 "203.0.113.9" "ssh" 22 "x"], []⟩ 0 (by decide)

end Honeypot
